import Mathlib

/-!
Shallow embedding of the race-test engine of race-the-web
(src/racer.go, src/unnamed/part_004, src/cmd.go, src/helpers.go),
together with proofs about its response-grouping algorithm
(`compareResponses`), its attack preparation (`prepareAttack`), its
dispatcher bookkeeping (`sendRequests`) and its entry point (`Start`).

Go strings are embedded as Lean `String`; `strings.Split` with a
one-character separator is embedded as `goSplit` below.  Go `int` /
`int64` values (status codes, content lengths) are embedded as `Int`:
they are only ever compared for equality, never arithmetically
combined, so overflow cannot occur.  Channels that are fully drained
behind the `sync.WaitGroup` barrier are embedded as lists in arrival
order.
-/

namespace RaceTheWeb

/-- Splitter on a single separator character, the embedding of Go
`strings.Split(s, sep)` for a one-character `sep` (`racer.go` line 204
and 316 use it with `"="` and `":"`).  `strings.Split` on an empty
string yields `[""]`, and in general returns the (possibly empty)
chunks between occurrences of the separator. -/
def charSplit (sep : Char) : List Char → List (List Char)
  | [] => [[]]
  | c :: cs =>
    if c = sep then [] :: charSplit sep cs
    else
      match charSplit sep cs with
      | [] => [[c]]
      | p :: ps => (c :: p) :: ps

/-- `strings.Split` on Lean `String`s. -/
def goSplit (sep : Char) (s : String) : List String :=
  (charSplit sep s.data).map (fun l => ⟨l⟩)

/-- A `Target` (named `Request` in src/unnamed/part_004): one HTTP
request template, `racer.go` lines 50-58.  The `CookieJar` field is a
derived per-target jar pointer populated during preparation; it is not
part of the configured template and is omitted here (two records of
the same target share the same jar, so it never separates values that
agree on the remaining fields). -/
structure Target where
  Method : String
  URL : String
  Body : String
  Cookies : List String
  Headers : List String
  Redirects : Bool
deriving DecidableEq, Repr

/-- The configuration consumed by the engine, `racer.go` lines 42-47. -/
structure Configuration where
  Count : Nat
  Verbose : Bool
  Proxy : String
  Targets : List Target
deriving DecidableEq, Repr

instance {ε α : Type} [DecidableEq ε] [DecidableEq α] : DecidableEq (Except ε α) := fun x y =>
  match x, y with
  | .ok a, .ok b => if h : a = b then .isTrue (by rw [h]) else .isFalse (by simp [h])
  | .error a, .error b => if h : a = b then .isTrue (by rw [h]) else .isFalse (by simp [h])
  | .ok _, .error _ => .isFalse (by simp)
  | .error _, .ok _ => .isFalse (by simp)

/-- The fields of an `*http.Response` that the engine reads, plus the
outcome of draining its body (`readResponseBody`, `racer.go` lines
545-554: `ioutil.ReadAll` either yields the content or an error).
`LocationHeader` models `Response.Location()`: `none` stands for
`http.ErrNoLocation`. -/
structure HTTPResponse where
  StatusCode : Int
  ContentLength : Int
  Proto : String
  Headers : List (String × List String)
  LocationHeader : Option String
  BodyRead : Except String String
deriving DecidableEq, Repr

/-- `ResponseInfo`, `racer.go` lines 81-84: a captured response plus
the target that produced it. -/
structure ResponseInfo where
  Response : HTTPResponse
  Target : Target
deriving DecidableEq, Repr

/-- `UniqueResponseData`, `racer.go` lines 94-101. -/
structure UniqueResponseData where
  Body : String
  StatusCode : Int
  Length : Int
  Protocol : String
  Headers : List (String × List String)
  Location : String
deriving DecidableEq, Repr

/-- `UniqueResponseInfo`, `racer.go` lines 87-91: one outcome group. -/
structure UniqueResponseInfo where
  Response : UniqueResponseData
  Targets : List Target
  Count : Nat
deriving DecidableEq, Repr

/-- Construction of the `UniqueResponseData` snapshot for one record,
`racer.go` lines 437-446: the `Location` field keeps its zero value
`""` when `Response.Location()` returns `http.ErrNoLocation`. -/
def mkData (resp : HTTPResponse) (body : String) : UniqueResponseData :=
  { Body := body
    StatusCode := resp.StatusCode
    Length := resp.ContentLength
    Protocol := resp.Proto
    Headers := resp.Headers
    Location := match resp.LocationHeader with
      | some l => l
      | none => "" }

/-- The match condition of the grouping scan, `racer.go` line 464:
status code, body and content length compared component-wise. -/
def respMatch (d g : UniqueResponseData) : Bool :=
  d.StatusCode == g.StatusCode && d.Body == g.Body && d.Length == g.Length

/-- Target deduplication inside a matched group, `racer.go` lines
469-482: the incoming target is appended only when no existing member
is structurally equal (`reflect.DeepEqual`). -/
def addTarget (ts : List Target) (t : Target) : List Target :=
  if ts.any (fun ct => decide (ct = t)) then ts else ts ++ [t]

/-- One iteration of the grouping loop of `compareResponses`,
`racer.go` lines 448-497, for a record whose body was read
successfully: scan the existing groups in creation order, join the
first group whose `(status, body, length)` matches (incrementing its
count and deduplicating its target list), otherwise append a fresh
group with count 1.  The `len(uniqueResponses) == 0` special case of
line 448 coincides with the no-match case of the empty scan. -/
def addUniqueResponse : List UniqueResponseInfo → UniqueResponseData → Target →
    List UniqueResponseInfo
  | [], d, t => [⟨d, [t], 1⟩]
  | g :: gs, d, t =>
    if respMatch d g.Response then
      ⟨g.Response, addTarget g.Targets t, g.Count + 1⟩ :: gs
    else
      g :: addUniqueResponse gs d t

/-- One iteration of the outer loop of `compareResponses`, `racer.go`
lines 426-498: a record whose body read fails contributes one error
string and is skipped; otherwise it is folded into the groups. -/
def compareStep (acc : List UniqueResponseInfo × List String) (ri : ResponseInfo) :
    List UniqueResponseInfo × List String :=
  match ri.Response.BodyRead with
  | .error e => (acc.1, acc.2 ++ ["Error reading response body: " ++ e])
  | .ok body => (addUniqueResponse acc.1 (mkData ri.Response body) ri.Target, acc.2)

/-- `compareResponses`, `racer.go` lines 416-509: consume the drained
response channel in arrival order, producing the outcome groups and
the non-fatal error list. -/
def compareResponses (rs : List ResponseInfo) : List UniqueResponseInfo × List String :=
  rs.foldl compareStep ([], [])

/-- The records of a run whose body read succeeded, paired as
(snapshot, origin target); the records `compareResponses` actually
groups. -/
def okData (rs : List ResponseInfo) : List (UniqueResponseData × Target) :=
  rs.filterMap (fun ri =>
    match ri.Response.BodyRead with
    | .ok b => some (mkData ri.Response b, ri.Target)
    | .error _ => none)

/-- The error strings that `compareResponses` emits for records whose
body read failed, `racer.go` line 430, in arrival order. -/
def readErrors (rs : List ResponseInfo) : List String :=
  rs.filterMap (fun ri =>
    match ri.Response.BodyRead with
    | .error e => some ("Error reading response body: " ++ e)
    | .ok _ => none)

/-- The grouping pass as a fold of `addUniqueResponse` over
successfully-read records, starting from arbitrary groups. -/
def foldGroups (gs : List UniqueResponseInfo)
    (ms : List (UniqueResponseData × Target)) : List UniqueResponseInfo :=
  ms.foldl (fun g m => addUniqueResponse g m.1 m.2) gs

/-- The equivalence key of the grouping scan: the
`(status_code, body_text, content_length)` tuple of `racer.go` line 464. -/
def keyOf (d : UniqueResponseData) : Int × String × Int :=
  (d.StatusCode, d.Body, d.Length)

/-- The key of a group's exemplar. -/
def gkey (g : UniqueResponseInfo) : Int × String × Int :=
  keyOf g.Response

/-- Sum of the `Count` fields over a list of groups. -/
def totalCount (gs : List UniqueResponseInfo) : Nat :=
  (gs.map (·.Count)).sum

/-- Sum of the `Count` fields of the groups whose exemplar has key `k`. -/
def keyCount (gs : List UniqueResponseInfo) (k : Int × String × Int) : Nat :=
  totalCount (gs.filter (fun g => decide (gkey g = k)))

/-- The `(key, count)` pair of one group, the order-independent content
of a grouping result. -/
def pairOf (g : UniqueResponseInfo) : (Int × String × Int) × Nat :=
  (gkey g, g.Count)

/-- Number of records of `ms` whose snapshot has key `k`. -/
def recCount (ms : List (UniqueResponseData × Target)) (k : Int × String × Int) : Nat :=
  ms.countP (fun m => decide (keyOf m.1 = k))

/-! ### Ghost (member-tracking) grouping

`compareResponses` keeps only a count per group, not the records that
were matched into it.  To state which records a run "places in the
same group", `GGroup` carries, next to the group produced by the code,
the list of records matched into it; `ginsert` performs exactly the
scan of `addUniqueResponse` and additionally appends the record to the
members of the group it joins.  `gcompare_eq_compareResponses` (below)
proves that forgetting the members recovers `compareResponses`. -/

/-- One outcome group together with the records matched into it. -/
structure GGroup where
  info : UniqueResponseInfo
  members : List (UniqueResponseData × Target)
deriving DecidableEq, Repr

/-- The grouping scan of `addUniqueResponse`, instrumented with group
membership. -/
def ginsert : List GGroup → UniqueResponseData → Target → List GGroup
  | [], d, t => [⟨⟨d, [t], 1⟩, [(d, t)]⟩]
  | g :: gs, d, t =>
    if respMatch d g.info.Response then
      ⟨⟨g.info.Response, addTarget g.info.Targets t, g.info.Count + 1⟩,
        g.members ++ [(d, t)]⟩ :: gs
    else
      g :: ginsert gs d t

/-- The instrumented grouping as a fold from arbitrary groups. -/
def gfoldGroups (gs : List GGroup)
    (ms : List (UniqueResponseData × Target)) : List GGroup :=
  ms.foldl (fun g m => ginsert g m.1 m.2) gs

/-- The grouping pass of `compareResponses`, instrumented with group
membership: successfully-read records in arrival order are folded by
`ginsert`. -/
def gcompare (rs : List ResponseInfo) : List GGroup :=
  gfoldGroups [] (okData rs)

/-! ### Request dispatcher (`sendRequests`, racer.go lines 255-411)

`sendRequests` reserves `Count * len(Targets)` units on the
`urlsInProgress` wait group (line 259).  For each target a goroutine
parses the target URL; on a parse error it emits one error and returns
at line 268 WITHOUT launching the `Count` request units — so none of
the `Count` reserved `Done` calls for that target ever happens.  For a
target whose URL parses, each of its `Count` units ends in a deferred
`Done` (line 287) after producing either a response or an error.
`urlsInProgress.Wait()` (line 399) returns exactly when the number of
`Done` calls reaches the number reserved by `Add`.  URL parsing is
`net/url.Parse`, standard-library code, abstracted as an oracle
`parseOk : String → Bool`. -/

/-- Number of wait-group units reserved by `urlsInProgress.Add`,
`racer.go` line 259. -/
def expectedUnits (cfg : Configuration) : Nat :=
  cfg.Count * cfg.Targets.length

/-- Number of `urlsInProgress.Done` calls that eventually happen: each
target whose URL parses contributes `Count` (one per finished request
unit, `racer.go` line 287); a target whose URL fails to parse
contributes none (early return at line 268). -/
def completedDones (parseOk : String → Bool) (cfg : Configuration) : Nat :=
  (cfg.Targets.map (fun t => if parseOk t.URL then cfg.Count else 0)).sum

/-- The completion barrier: `urlsInProgress.Wait()` (line 399), and
hence `sendRequests` itself, returns precisely when every reserved
unit has been matched by a `Done`. -/
def dispatcherReturns (parseOk : String → Bool) (cfg : Configuration) : Prop :=
  completedDones parseOk cfg = expectedUnits cfg

/-- Number of URL-parse errors emitted at `racer.go` line 267. -/
def urlParseErrors (parseOk : String → Bool) (cfg : Configuration) : Nat :=
  cfg.Targets.countP (fun t => !parseOk t.URL)

/-! ### One request execution (`sendRequests` inner goroutine) -/

/-- Outcome of `client.Do` as classified by `racer.go` lines 369-392:
success, a `*url.Error` wrapping the custom `*RedirectError` (the
blocked-redirect sentinel, carrying the redirect response itself), a
`*url.Error` of any other kind, or a non-URL error. -/
inductive DoResult where
  | success (resp : HTTPResponse)
  | urlRedirect (resp : HTTPResponse)
  | urlOther (msg : String)
  | otherErr (msg : String)
deriving DecidableEq, Repr

/-- Whether a status code makes `net/http` attempt a redirect
(301, 302, 303, 307, 308). -/
def isRedirectStatus (c : Int) : Bool :=
  c == 301 || c == 302 || c == 303 || c == 307 || c == 308

/-- Modelled from the spec (and the documented `net/http.Client`
contract): the client installed at `racer.go` lines 349-366 follows
redirects transparently when `Redirects` is true; when `Redirects` is
false its `CheckRedirect` hook (lines 359-363) returns a
`*RedirectError`, which `client.Do` surfaces as a `*url.Error`
wrapping it, alongside the redirect response itself.  A non-redirect
response is returned as a plain success. -/
def clientDo (redirects : Bool) (srv : HTTPResponse) : DoResult :=
  if !redirects && isRedirectStatus srv.StatusCode then .urlRedirect srv
  else .success srv

/-- The error/response routing of one execution, `racer.go` lines
369-392: a success and a blocked redirect each contribute exactly one
`ResponseInfo` and no error; both error cases contribute one error
(tagged with the execution index) and no `ResponseInfo`. -/
def handleDoResult (t : Target) (index : Nat) (r : DoResult) :
    List ResponseInfo × List String :=
  match r with
  | .success resp => ([⟨resp, t⟩], [])
  | .urlRedirect resp => ([⟨resp, t⟩], [])
  | .urlOther m => ([], ["Error in request #" ++ toString index ++ ": " ++ m])
  | .otherErr m => ([], ["Error in request #" ++ toString index ++ ": " ++ m])

/-! ### Request headers (`sendRequests`, src/unnamed/part_004 lines 257-285)

The revision of the racer used by the named `cmd.go`/`helpers.go`
(src/unnamed/part_004) builds the request headers as follows: if the
target has cookies, one `Cookie` header joining them with `";"` (lines
258-262); then each custom header string is split on `":"` into
`split[0]` / `split[1]` and added (lines 267-278), while a flag
records whether some custom header's name is `content-type` after
`strings.ToLower`; finally `Content-Type:
application/x-www-form-urlencoded` is added when the flag is unset and
the method is `POST` (lines 282-285).  The older revision
`src/racer.go` lines 314-327 is identical except that it lacks the
flag and adds the default unconditionally for `POST`.
A header string without `":"` makes `split[1]` an out-of-range index —
a Go runtime panic; the panic is modelled by `none`. -/

/-- The embedding of Go `strings.ToLower` used on header names
(`part_004` line 274): character-wise lowering.  (Header names of
interest are ASCII, where `Char.toLower` agrees with Go.) -/
def goToLower (s : String) : String :=
  ⟨s.data.map Char.toLower⟩

/-- Split of one custom header string, `part_004` lines 268-270
(`racer.go` lines 316-318): `none` models the index-out-of-range panic
on a string without a colon; otherwise the name is `split[0]` and the
value `split[1]` (text after a second colon is dropped). -/
def parseHeader (h : String) : Option (String × String) :=
  match goSplit ':' h with
  | k :: v :: _ => some (k, v)
  | _ => none

/-- The custom-header loop of `part_004` lines 266-278: accumulates
the parsed `(name, value)` pairs in order together with the
`contentType` flag; `none` models the panic on a colon-less header. -/
def headerFold : List String → Option (List (String × String) × Bool)
  | [] => some ([], false)
  | h :: rest =>
    match parseHeader h with
    | none => none
    | some (k, v) =>
      match headerFold rest with
      | none => none
      | some (l, ct) => some ((k, v) :: l, (goToLower k == "content-type") || ct)

/-- The `Cookie` header of `part_004` lines 258-262 (`racer.go` lines
309-312): present only when the target has cookies, joining them with
`";"`. -/
def cookieHeader (t : Target) : List (String × String) :=
  if t.Cookies.length > 0 then [("Cookie", String.intercalate ";" t.Cookies)] else []

/-- The default header added to POST requests, `part_004` line 284. -/
def ctDefaultPair : String × String :=
  ("Content-Type", "application/x-www-form-urlencoded")

/-- The complete sequence of `req.Header.Add` calls of one execution
in `part_004` lines 257-285: cookie header, custom headers in order,
then the POST default when no custom header supplied a content type.
`none` models the panic on a colon-less custom header. -/
def requestHeaderList (t : Target) : Option (List (String × String)) :=
  match headerFold t.Headers with
  | none => none
  | some (custom, ct) =>
    some (cookieHeader t ++ custom ++
      (if !ct && t.Method == "POST" then [ctDefaultPair] else []))

/-- Spec-side predicate ("no explicit `Content-Type` header was
supplied"): some configured header string names `Content-Type`, up to
case, before its first colon. -/
def suppliesContentType (hs : List String) : Prop :=
  ∃ h ∈ hs, ∃ v rest, goSplit ':' h = v :: rest ∧ goToLower v = "content-type"

/-- One request execution after URL parsing, `part_004` lines 234-348:
header construction (a panic aborts the whole process, modelled by
`none`), then the `client.Do` outcome routed by `handleDoResult`. -/
def executionOutcome (t : Target) (index : Nat) (srv : HTTPResponse) :
    Option (List ResponseInfo × List String) :=
  match requestHeaderList t with
  | none => none
  | some _ => some (handleDoResult t index (clientDo t.Redirects srv))

/-! ### Attack preparation (`prepareAttack`, racer.go lines 197-241)

The cookie-parsing phase, lines 199-224 (identical in `part_004` lines
158-183): each cookie string is split on `"="`; `vals[0]` and
`vals[1]` are trimmed into the cookie name and value.  On a string
without `"="` the split is a singleton, so `vals[1]` is an
out-of-range index — a Go runtime panic, not an error return.  The
target URL is then parsed; a parse failure is returned as an error.
The subsequent proxy validation (lines 226-241) is not needed by any
claim and is not modelled. -/

/-- Parse of one cookie string, `racer.go` lines 204-206: `none`
models the index-out-of-range panic on a string without `"="`. -/
def parseCookie (c : String) : Option (String × String) :=
  match goSplit '=' c with
  | v0 :: v1 :: _ => some (v0.trim, v1.trim)
  | _ => none

/-- Result of attack preparation: normal return, an error return, or a
runtime panic (which is not an error return — it crashes the process). -/
inductive PrepOutcome where
  | ok
  | err (msg : String)
  | panicked
deriving DecidableEq, Repr

/-- The per-target loop of `prepareAttack`, `racer.go` lines 199-224:
cookies of each target are parsed in order (a malformed one panics),
then the target URL is parsed (a failure returns an error). -/
def prepareAttackCookies (parseOk : String → Bool) : List Target → PrepOutcome
  | [] => .ok
  | t :: rest =>
    match t.Cookies.mapM parseCookie with
    | none => .panicked
    | some _ =>
      if parseOk t.URL then prepareAttackCookies parseOk rest
      else .err ("Error parsing target URL: " ++ t.URL)

/-! ### Engine entry point (`Start`, racer.go lines 116-166)

After configuration checks, `Start` drains the dispatcher's error
channel to the console (lines 139-143), runs `compareResponses`,
drains its error channel to the console (lines 155-159), and returns
`(nil, uniqueResponses)` (line 165): the accumulated non-fatal errors
are printed, not returned.  The dispatch outcome (responses and
errors of `sendRequests`) is network I/O and is passed in as data. -/

/-- The value `Start` hands back to its caller paired with the
`[ERROR]` lines it prints to the console. -/
def startModel (cfg : Configuration)
    (dispatched : List ResponseInfo × List String) :
    (Option String × List UniqueResponseInfo) × List String :=
  if cfg.Targets.length = 0 then
    ((some "No targets set. Minimum of 1 target required.", []), [])
  else
    let u := compareResponses dispatched.1
    ((none, u.1),
      dispatched.2.map (fun e => "[ERROR] " ++ e) ++ u.2.map (fun e => "[ERROR] " ++ e))

/-- Member invariant of the instrumented grouping: every record stored
in a group matches the group's exemplar key. -/
def GMemInv (gs : List GGroup) : Prop :=
  ∀ g ∈ gs, ∀ m ∈ g.members, keyOf m.1 = gkey g.info

/-! ### Sample values used by concrete instantiations -/

/-- A plain GET target. -/
def tFoo : Target :=
  { Method := "GET", URL := "http://a.example/x", Body := "", Cookies := [],
    Headers := [], Redirects := false }

/-- A target whose URL string `":"` is rejected by `net/url.Parse`
(`parse ":": missing protocol scheme`). -/
def tBadURL : Target :=
  { Method := "GET", URL := ":", Body := "", Cookies := [], Headers := [],
    Redirects := false }

/-- A POST target with one custom header and no explicit content type. -/
def tPostW : Target :=
  { Method := "POST", URL := "http://b.example/y", Body := "a=1", Cookies := [],
    Headers := ["X-A:1"], Redirects := false }

/-- A target with a colon-less header string. -/
def tHdrPanic : Target :=
  { Method := "GET", URL := "http://a.example/x", Body := "", Cookies := [],
    Headers := ["X-Token"], Redirects := false }

/-- A target with a cookie string lacking `"="`. -/
def tBadCookie : Target :=
  { Method := "GET", URL := "http://a.example/x", Body := "", Cookies := ["nameonly"],
    Headers := [], Redirects := false }

/-- A 200 response with the given body, read successfully. -/
def okResp (body : String) : HTTPResponse :=
  { StatusCode := 200, ContentLength := 2, Proto := "HTTP/1.1", Headers := [],
    LocationHeader := none, BodyRead := .ok body }

/-- A 200 response whose body read fails. -/
def errResp : HTTPResponse :=
  { StatusCode := 200, ContentLength := 2, Proto := "HTTP/1.1", Headers := [],
    LocationHeader := none, BodyRead := .error "read failed" }

/-- A 302 redirect response. -/
def redirResp : HTTPResponse :=
  { StatusCode := 302, ContentLength := 0, Proto := "HTTP/1.1",
    Headers := [("Location", ["http://a.example/next"])],
    LocationHeader := some "http://a.example/next", BodyRead := .ok "" }

/-- Three records: two with body `"ok"`, one with body `"no"`. -/
def rsSample : List ResponseInfo :=
  [⟨okResp "ok", tFoo⟩, ⟨okResp "ok", tFoo⟩, ⟨okResp "no", tFoo⟩]

/-- `rsSample` with its records in a different arrival order. -/
def rsSwapped : List ResponseInfo :=
  [⟨okResp "no", tFoo⟩, ⟨okResp "ok", tFoo⟩, ⟨okResp "ok", tFoo⟩]

/-- The instrumented group collecting the two `"ok"` records of
`rsSample`. -/
def gSample1 : GGroup :=
  ⟨⟨mkData (okResp "ok") "ok", [tFoo], 2⟩,
    [(mkData (okResp "ok") "ok", tFoo), (mkData (okResp "ok") "ok", tFoo)]⟩

/-- The instrumented group collecting the `"no"` record of `rsSample`. -/
def gSample2 : GGroup :=
  ⟨⟨mkData (okResp "no") "no", [tFoo], 1⟩, [(mkData (okResp "no") "no", tFoo)]⟩

/-! ## Basic lemmas about the grouping scan -/

theorem respMatch_iff (d g : UniqueResponseData) :
    respMatch d g = true ↔ keyOf d = keyOf g := by
  simp [respMatch, keyOf, Prod.ext_iff, Bool.and_eq_true, beq_iff_eq, and_assoc]

theorem addTarget_nodup {ts : List Target} {t : Target} (h : ts.Nodup) :
    (addTarget ts t).Nodup := by
  unfold addTarget
  split
  · exact h
  · rename_i hany
    have hnm : t ∉ ts := by
      intro hm
      exact hany (List.any_eq_true.mpr ⟨t, hm, by simp⟩)
    rw [List.nodup_append]
    refine ⟨h, List.nodup_singleton t, ?_⟩
    intro a ha hat
    rw [List.mem_singleton] at hat
    exact hnm (hat ▸ ha)

theorem totalCount_nil : totalCount [] = 0 := rfl

theorem totalCount_cons (g : UniqueResponseInfo) (gs : List UniqueResponseInfo) :
    totalCount (g :: gs) = g.Count + totalCount gs := by
  simp [totalCount]

theorem addUniqueResponse_totalCount (gs : List UniqueResponseInfo)
    (d : UniqueResponseData) (t : Target) :
    totalCount (addUniqueResponse gs d t) = totalCount gs + 1 := by
  induction gs with
  | nil => simp [addUniqueResponse, totalCount]
  | cons g gs ih =>
    by_cases h : respMatch d g.Response
    · simp only [addUniqueResponse, h, if_true, totalCount_cons]
      omega
    · simp only [addUniqueResponse, h, if_false, Bool.false_eq_true, totalCount_cons, ih]
      omega

theorem foldGroups_totalCount (ms : List (UniqueResponseData × Target)) :
    ∀ gs : List UniqueResponseInfo,
      totalCount (foldGroups gs ms) = totalCount gs + ms.length := by
  induction ms with
  | nil => intro gs; simp [foldGroups]
  | cons m ms ih =>
    intro gs
    simp only [foldGroups, List.foldl_cons] at *
    rw [ih (addUniqueResponse gs m.1 m.2), addUniqueResponse_totalCount]
    simp only [List.length_cons]
    omega

/-! ## `compareResponses` as a fold over the successfully-read records -/

theorem foldl_compareStep (rs : List ResponseInfo) :
    ∀ (gs : List UniqueResponseInfo) (es : List String),
      rs.foldl compareStep (gs, es) = (foldGroups gs (okData rs), es ++ readErrors rs) := by
  induction rs with
  | nil => intro gs es; simp [okData, readErrors, foldGroups]
  | cons r rs ih =>
    intro gs es
    cases h : r.Response.BodyRead with
    | error e =>
      simp only [List.foldl_cons, compareStep, h, okData, readErrors,
        List.filterMap_cons, foldGroups]
      rw [ih]
      simp [okData, readErrors, foldGroups, List.append_assoc]
    | ok b =>
      simp only [List.foldl_cons, compareStep, h, okData, readErrors,
        List.filterMap_cons, foldGroups]
      rw [ih]
      simp [okData, readErrors, foldGroups]

theorem compareResponses_eq (rs : List ResponseInfo) :
    compareResponses rs = (foldGroups [] (okData rs), readErrors rs) := by
  simpa using foldl_compareStep rs [] []

theorem okData_cons_ok {r : ResponseInfo} {b : String} (rs : List ResponseInfo)
    (h : r.Response.BodyRead = .ok b) :
    okData (r :: rs) = (mkData r.Response b, r.Target) :: okData rs := by
  simp [okData, List.filterMap_cons, h]

theorem okData_cons_error {r : ResponseInfo} {e : String} (rs : List ResponseInfo)
    (h : r.Response.BodyRead = .error e) :
    okData (r :: rs) = okData rs := by
  simp [okData, List.filterMap_cons, h]

theorem readErrors_cons_ok {r : ResponseInfo} {b : String} (rs : List ResponseInfo)
    (h : r.Response.BodyRead = .ok b) :
    readErrors (r :: rs) = readErrors rs := by
  simp [readErrors, List.filterMap_cons, h]

theorem readErrors_cons_error {r : ResponseInfo} {e : String} (rs : List ResponseInfo)
    (h : r.Response.BodyRead = .error e) :
    readErrors (r :: rs) = ("Error reading response body: " ++ e) :: readErrors rs := by
  simp [readErrors, List.filterMap_cons, h]

theorem okData_length (rs : List ResponseInfo) :
    (okData rs).length = rs.countP (fun ri => ri.Response.BodyRead.isOk) := by
  induction rs with
  | nil => simp [okData]
  | cons r rs ih =>
    rw [List.countP_cons]
    cases h : r.Response.BodyRead with
    | error e =>
      rw [okData_cons_error rs h, ih]
      simp [h, Except.isOk, Except.toBool]
    | ok b =>
      rw [okData_cons_ok rs h, List.length_cons, ih]
      simp [h, Except.isOk, Except.toBool]

/-- Claim C2: for every finite sequence of `ResponseRecord`s processed
by `compareResponses`, the sum of `Count` over all produced
`UniqueResponseInfo` groups equals the number of records whose body
was successfully read; a record whose body read fails contributes one
non-fatal error and no count. -/
theorem compareResponses_conservation (rs : List ResponseInfo) :
    totalCount (compareResponses rs).1 =
      rs.countP (fun ri => ri.Response.BodyRead.isOk) ∧
    (compareResponses rs).2.length =
      rs.countP (fun ri => !ri.Response.BodyRead.isOk) := by
  rw [compareResponses_eq]
  constructor
  · rw [foldGroups_totalCount, totalCount_nil, okData_length]
    omega
  · simp only []
    induction rs with
    | nil => simp [readErrors]
    | cons r rs ih =>
      rw [List.countP_cons]
      cases h : r.Response.BodyRead with
      | error e =>
        rw [readErrors_cons_error rs h, List.length_cons, ih]
        simp [h, Except.isOk, Except.toBool]
      | ok b =>
        rw [readErrors_cons_ok rs h, ih]
        simp [h, Except.isOk, Except.toBool]

/-! ## Keys of the produced groups -/

theorem gkey_mk (d : UniqueResponseData) (ts : List Target) (n : Nat) :
    gkey ⟨d, ts, n⟩ = keyOf d := rfl

theorem addUniqueResponse_gkeys (gs : List UniqueResponseInfo)
    (d : UniqueResponseData) (t : Target) :
    (addUniqueResponse gs d t).map gkey =
      if keyOf d ∈ gs.map gkey then gs.map gkey else gs.map gkey ++ [keyOf d] := by
  induction gs with
  | nil => simp [addUniqueResponse, gkey]
  | cons g gs ih =>
    by_cases h : respMatch d g.Response
    · have hk : keyOf d = gkey g := (respMatch_iff d g.Response).mp h
      simp [addUniqueResponse, h, gkey, hk]
    · have hk : keyOf d ≠ gkey g := fun hc => h ((respMatch_iff d g.Response).mpr hc)
      simp only [addUniqueResponse, h, if_false, Bool.false_eq_true, List.map_cons, ih,
        List.mem_cons]
      by_cases hm : keyOf d ∈ gs.map gkey
      · simp [hm, hk]
      · simp [hm, hk]

theorem addUniqueResponse_gkeys_nodup {gs : List UniqueResponseInfo}
    (d : UniqueResponseData) (t : Target) (h : (gs.map gkey).Nodup) :
    ((addUniqueResponse gs d t).map gkey).Nodup := by
  rw [addUniqueResponse_gkeys]
  by_cases hm : keyOf d ∈ gs.map gkey
  · simpa [hm] using h
  · simp only [hm, if_false]
    rw [List.nodup_append]
    refine ⟨h, List.nodup_singleton _, ?_⟩
    intro a ha hat
    rw [List.mem_singleton] at hat
    exact hm (hat ▸ ha)

theorem foldGroups_gkeys_nodup (ms : List (UniqueResponseData × Target)) :
    ∀ {gs : List UniqueResponseInfo}, (gs.map gkey).Nodup →
      ((foldGroups gs ms).map gkey).Nodup := by
  induction ms with
  | nil => intro gs h; simpa [foldGroups] using h
  | cons m ms ih =>
    intro gs h
    simp only [foldGroups, List.foldl_cons]
    exact ih (addUniqueResponse_gkeys_nodup m.1 m.2 h)

theorem addUniqueResponse_mem_gkeys (gs : List UniqueResponseInfo)
    (d : UniqueResponseData) (t : Target) (k : Int × String × Int) :
    k ∈ (addUniqueResponse gs d t).map gkey ↔ k ∈ gs.map gkey ∨ k = keyOf d := by
  rw [addUniqueResponse_gkeys]
  by_cases hm : keyOf d ∈ gs.map gkey
  · simp only [hm, if_true]
    constructor
    · exact Or.inl
    · rintro (h | rfl)
      · exact h
      · exact hm
  · simp [hm]

theorem foldGroups_mem_gkeys (ms : List (UniqueResponseData × Target)) :
    ∀ (gs : List UniqueResponseInfo) (k : Int × String × Int),
      (k ∈ (foldGroups gs ms).map gkey ↔
        k ∈ gs.map gkey ∨ k ∈ ms.map (fun m => keyOf m.1)) := by
  induction ms with
  | nil => intro gs k; simp [foldGroups]
  | cons m ms ih =>
    intro gs k
    simp only [foldGroups, List.foldl_cons]
    rw [show (ms.foldl (fun g m => addUniqueResponse g m.1 m.2)
        (addUniqueResponse gs m.1 m.2)) = foldGroups (addUniqueResponse gs m.1 m.2) ms
      from rfl]
    rw [ih, addUniqueResponse_mem_gkeys]
    simp only [List.map_cons, List.mem_cons]
    tauto

/-! ## Per-key counts -/

theorem keyCount_nil (k : Int × String × Int) : keyCount [] k = 0 := rfl

theorem keyCount_cons (g : UniqueResponseInfo) (gs : List UniqueResponseInfo)
    (k : Int × String × Int) :
    keyCount (g :: gs) k = (if gkey g = k then g.Count else 0) + keyCount gs k := by
  by_cases h : gkey g = k
  · simp [keyCount, List.filter_cons, h, totalCount_cons]
  · simp [keyCount, List.filter_cons, h]

theorem addUniqueResponse_keyCount (gs : List UniqueResponseInfo)
    (d : UniqueResponseData) (t : Target) (k : Int × String × Int) :
    keyCount (addUniqueResponse gs d t) k =
      keyCount gs k + (if keyOf d = k then 1 else 0) := by
  induction gs with
  | nil =>
    by_cases h : keyOf d = k
    · simp [addUniqueResponse, keyCount_cons, keyCount_nil, gkey, h]
    · simp [addUniqueResponse, keyCount_cons, keyCount_nil, gkey, h]
  | cons g gs ih =>
    by_cases h : respMatch d g.Response
    · have hk : keyOf d = keyOf g.Response := (respMatch_iff d g.Response).mp h
      simp only [addUniqueResponse, h, if_true]
      rw [keyCount_cons, keyCount_cons, gkey_mk]
      rw [show gkey g = keyOf g.Response from rfl]
      by_cases hgk : keyOf g.Response = k
      · have hdk : keyOf d = k := hk.trans hgk
        simp only [hgk, hdk, if_true]
        omega
      · have hdk : ¬keyOf d = k := fun hc => hgk (hk.symm.trans hc)
        simp [hgk, hdk]
    · have hk : keyOf d ≠ keyOf g.Response := fun hc => h ((respMatch_iff d g.Response).mpr hc)
      simp only [addUniqueResponse, h, if_false, Bool.false_eq_true]
      rw [keyCount_cons, keyCount_cons, ih]
      omega

theorem recCount_cons (m : UniqueResponseData × Target)
    (ms : List (UniqueResponseData × Target)) (k : Int × String × Int) :
    recCount (m :: ms) k = recCount ms k + (if keyOf m.1 = k then 1 else 0) := by
  by_cases h : keyOf m.1 = k
  · simp [recCount, List.countP_cons, h]
  · simp [recCount, List.countP_cons, h]

theorem foldGroups_keyCount (ms : List (UniqueResponseData × Target)) :
    ∀ (gs : List UniqueResponseInfo) (k : Int × String × Int),
      keyCount (foldGroups gs ms) k = keyCount gs k + recCount ms k := by
  induction ms with
  | nil => intro gs k; simp [foldGroups, recCount]
  | cons m ms ih =>
    intro gs k
    simp only [foldGroups, List.foldl_cons]
    rw [show (ms.foldl (fun g m => addUniqueResponse g m.1 m.2)
        (addUniqueResponse gs m.1 m.2)) = foldGroups (addUniqueResponse gs m.1 m.2) ms
      from rfl]
    rw [ih, addUniqueResponse_keyCount, recCount_cons]
    omega

theorem keyCount_eq_zero {gs : List UniqueResponseInfo} {k : Int × String × Int}
    (h : k ∉ gs.map gkey) : keyCount gs k = 0 := by
  induction gs with
  | nil => rfl
  | cons g gs ih =>
    simp only [List.map_cons, List.mem_cons] at h
    push_neg at h
    have hne : gkey g ≠ k := fun hc => h.1 hc.symm
    rw [keyCount_cons, ih h.2]
    simp [hne]

theorem keyCount_eq_of_mem {gs : List UniqueResponseInfo} {g : UniqueResponseInfo}
    (hnd : (gs.map gkey).Nodup) (hg : g ∈ gs) : keyCount gs (gkey g) = g.Count := by
  induction gs with
  | nil => cases hg
  | cons g' gs ih =>
    simp only [List.map_cons, List.nodup_cons] at hnd
    rcases List.mem_cons.mp hg with rfl | hmem
    · rw [keyCount_cons, keyCount_eq_zero hnd.1]
      simp
    · have hne : gkey g' ≠ gkey g := by
        intro hc
        exact hnd.1 (hc ▸ List.mem_map_of_mem gkey hmem)
      rw [keyCount_cons, ih hnd.2 hmem]
      simp [hne]

theorem pairOf_mem_iff {gs : List UniqueResponseInfo}
    (hnd : (gs.map gkey).Nodup) (k : Int × String × Int) (c : Nat) :
    (k, c) ∈ gs.map pairOf ↔ k ∈ gs.map gkey ∧ c = keyCount gs k := by
  constructor
  · intro h
    obtain ⟨g, hg, hpair⟩ := List.mem_map.mp h
    have hk : gkey g = k := congrArg Prod.fst hpair
    have hc : g.Count = c := congrArg Prod.snd hpair
    refine ⟨hk ▸ List.mem_map_of_mem gkey hg, ?_⟩
    rw [← hk, keyCount_eq_of_mem hnd hg, hc]
  · rintro ⟨hk, rfl⟩
    obtain ⟨g, hg, hgk⟩ := List.mem_map.mp hk
    rw [← hgk, keyCount_eq_of_mem hnd hg]
    exact List.mem_map_of_mem pairOf hg

/-! ## Ghost grouping: erasure and member invariants -/

theorem ginsert_map_info (gs : List GGroup) (d : UniqueResponseData) (t : Target) :
    (ginsert gs d t).map (·.info) = addUniqueResponse (gs.map (·.info)) d t := by
  induction gs with
  | nil => rfl
  | cons g gs ih =>
    by_cases h : respMatch d g.info.Response
    · simp [ginsert, addUniqueResponse, h]
    · simp [ginsert, addUniqueResponse, h, ih]

theorem gfoldGroups_map_info (ms : List (UniqueResponseData × Target)) :
    ∀ gs : List GGroup,
      (gfoldGroups gs ms).map (·.info) = foldGroups (gs.map (·.info)) ms := by
  induction ms with
  | nil => intro gs; rfl
  | cons m ms ih =>
    intro gs
    simp only [gfoldGroups, foldGroups, List.foldl_cons]
    rw [show (ms.foldl (fun g m => ginsert g m.1 m.2) (ginsert gs m.1 m.2)) =
        gfoldGroups (ginsert gs m.1 m.2) ms from rfl]
    rw [ih, ginsert_map_info]
    rfl

theorem gcompare_map_info (rs : List ResponseInfo) :
    (gcompare rs).map (·.info) = (compareResponses rs).1 := by
  rw [gcompare, gfoldGroups_map_info, compareResponses_eq]
  simp

theorem ginsert_memInv {gs : List GGroup} (d : UniqueResponseData) (t : Target)
    (h : GMemInv gs) : GMemInv (ginsert gs d t) := by
  induction gs with
  | nil =>
    intro g hg m hm
    simp only [ginsert, List.mem_singleton] at hg
    subst hg
    simp only [List.mem_singleton] at hm
    subst hm
    rfl
  | cons g0 gs ih =>
    by_cases hm0 : respMatch d g0.info.Response
    · intro g hg m hm
      simp only [ginsert, hm0, if_true, List.mem_cons] at hg
      rcases hg with rfl | hg
      · simp only [List.mem_append, List.mem_singleton] at hm
        rcases hm with hm | rfl
        · exact h g0 (List.mem_cons_self g0 gs) m hm
        · exact (respMatch_iff d g0.info.Response).mp hm0
      · exact h g (List.mem_cons_of_mem g0 hg) m hm
    · intro g hg m hm
      simp only [ginsert, hm0, if_false, Bool.false_eq_true, List.mem_cons] at hg
      rcases hg with rfl | hg
      · exact h g (List.mem_cons_self g gs) m hm
      · have htail : GMemInv gs := fun g' hg' m' hm' =>
          h g' (List.mem_cons_of_mem g0 hg') m' hm'
        exact ih htail g hg m hm

theorem gfoldGroups_memInv (ms : List (UniqueResponseData × Target)) :
    ∀ {gs : List GGroup}, GMemInv gs → GMemInv (gfoldGroups gs ms) := by
  induction ms with
  | nil => intro gs h; exact h
  | cons m ms ih =>
    intro gs h
    simp only [gfoldGroups, List.foldl_cons]
    exact ih (ginsert_memInv m.1 m.2 h)

theorem gcompare_memInv (rs : List ResponseInfo) : GMemInv (gcompare rs) := by
  rw [gcompare]
  exact gfoldGroups_memInv (okData rs) (fun g hg => absurd hg (List.not_mem_nil g))

theorem gcompare_gkeys_nodup (rs : List ResponseInfo) :
    ((gcompare rs).map (fun g => gkey g.info)).Nodup := by
  have h1 : (gcompare rs).map (fun g => gkey g.info) =
      ((gcompare rs).map (·.info)).map gkey := by
    simp [List.map_map, Function.comp]
  rw [h1, gcompare_map_info, compareResponses_eq]
  exact foldGroups_gkeys_nodup (okData rs) (by simp)

/-- Claim C1: records that `compareResponses` places in the same
outcome group have component-wise equal
`(status_code, body_text, content_length)` tuples, and records placed
in different groups differ in at least one of the three components.
Group placement is read off the instrumented grouping `gcompare`,
whose groups erase to exactly the groups `compareResponses` returns
(first conjunct). -/
theorem compareResponses_membership (rs : List ResponseInfo) (g1 g2 : GGroup)
    (h1 : g1 ∈ gcompare rs) (h2 : g2 ∈ gcompare rs)
    (m1 m2 : UniqueResponseData × Target)
    (hm1 : m1 ∈ g1.members) (hm2 : m2 ∈ g2.members) :
    (gcompare rs).map (·.info) = (compareResponses rs).1 ∧
    (keyOf m1.1 = keyOf m2.1 ↔ g1 = g2) := by
  refine ⟨gcompare_map_info rs, ?_, ?_⟩
  · intro hkeys
    have e1 : keyOf m1.1 = gkey g1.info := gcompare_memInv rs g1 h1 m1 hm1
    have e2 : keyOf m2.1 = gkey g2.info := gcompare_memInv rs g2 h2 m2 hm2
    have : gkey g1.info = gkey g2.info := e1 ▸ e2 ▸ hkeys
    exact List.inj_on_of_nodup_map (gcompare_gkeys_nodup rs) h1 h2 this
  · intro hg
    subst hg
    have e1 : keyOf m1.1 = gkey g1.info := gcompare_memInv rs g1 h1 m1 hm1
    have e2 : keyOf m2.1 = gkey g1.info := gcompare_memInv rs g1 h1 m2 hm2
    exact e1.trans e2.symm

/-! ## Order-independence of the grouping content -/

theorem compareResponses_mem_gkeys (rs : List ResponseInfo) (k : Int × String × Int) :
    k ∈ ((compareResponses rs).1).map gkey ↔
      k ∈ (okData rs).map (fun m => keyOf m.1) := by
  rw [compareResponses_eq]
  simpa using foldGroups_mem_gkeys (okData rs) [] k

theorem compareResponses_keyCount (rs : List ResponseInfo) (k : Int × String × Int) :
    keyCount (compareResponses rs).1 k = recCount (okData rs) k := by
  rw [compareResponses_eq]
  simpa [keyCount_nil] using foldGroups_keyCount (okData rs) [] k

theorem compareResponses_gkeys_nodup (rs : List ResponseInfo) :
    (((compareResponses rs).1).map gkey).Nodup := by
  rw [compareResponses_eq]
  exact foldGroups_gkeys_nodup _ (by simp)

theorem compareResponses_pairs_nodup (rs : List ResponseInfo) :
    (((compareResponses rs).1).map pairOf).Nodup := by
  have hfg : ((compareResponses rs).1).map gkey =
      (((compareResponses rs).1).map pairOf).map Prod.fst := by
    rw [List.map_map]
    rfl
  exact List.Nodup.of_map Prod.fst (hfg ▸ compareResponses_gkeys_nodup rs)

theorem okData_perm {rs rs' : List ResponseInfo} (h : rs.Perm rs') :
    (okData rs).Perm (okData rs') :=
  h.filterMap _

/-- Claim C3: for every finite multiset of records and every
permutation of their arrival order, `compareResponses` produces the
same multiset of `((status_code, body_text, content_length), count)`
pairs: the pair lists of the two runs are permutations of each
other. -/
theorem compareResponses_perm (rs rs' : List ResponseInfo) (h : rs.Perm rs') :
    (((compareResponses rs).1).map pairOf).Perm
      (((compareResponses rs').1).map pairOf) := by
  apply (List.perm_ext_iff_of_nodup (compareResponses_pairs_nodup rs)
    (compareResponses_pairs_nodup rs')).mpr
  rintro ⟨k, c⟩
  rw [pairOf_mem_iff (compareResponses_gkeys_nodup rs),
    pairOf_mem_iff (compareResponses_gkeys_nodup rs'),
    compareResponses_mem_gkeys, compareResponses_mem_gkeys,
    compareResponses_keyCount, compareResponses_keyCount]
  have hperm := okData_perm h
  rw [(hperm.map (fun m => keyOf m.1)).mem_iff]
  rw [show recCount (okData rs) k = recCount (okData rs') k from
    hperm.countP_eq _]

/-! ## Target deduplication inside groups -/

theorem addUniqueResponse_targetsNodup {gs : List UniqueResponseInfo}
    (d : UniqueResponseData) (t : Target) (h : ∀ g ∈ gs, g.Targets.Nodup) :
    ∀ g' ∈ addUniqueResponse gs d t, g'.Targets.Nodup := by
  induction gs with
  | nil =>
    intro g' hg'
    simp only [addUniqueResponse, List.mem_singleton] at hg'
    subst hg'
    exact List.nodup_singleton t
  | cons g gs ih =>
    by_cases hm : respMatch d g.Response
    · intro g' hg'
      simp only [addUniqueResponse, hm, if_true, List.mem_cons] at hg'
      rcases hg' with rfl | hg'
      · exact addTarget_nodup (h g (List.mem_cons_self g gs))
      · exact h g' (List.mem_cons_of_mem g hg')
    · intro g' hg'
      simp only [addUniqueResponse, hm, if_false, Bool.false_eq_true, List.mem_cons] at hg'
      rcases hg' with rfl | hg'
      · exact h g' (List.mem_cons_self g' gs)
      · exact ih (fun g'' hg'' => h g'' (List.mem_cons_of_mem g hg'')) g' hg'

theorem foldGroups_targetsNodup (ms : List (UniqueResponseData × Target)) :
    ∀ {gs : List UniqueResponseInfo}, (∀ g ∈ gs, g.Targets.Nodup) →
      ∀ g' ∈ foldGroups gs ms, g'.Targets.Nodup := by
  induction ms with
  | nil => intro gs h; exact h
  | cons m ms ih =>
    intro gs h
    simp only [foldGroups, List.foldl_cons]
    exact ih (addUniqueResponse_targetsNodup m.1 m.2 h)

/-- Claim C7: in every group produced by `compareResponses` the
`Targets` list never contains two structurally equal request
descriptors (structural equality compares every field, with ordered
comparison of the cookie and header lists); moreover a descriptor
already present is never appended again by the deduplication step. -/
theorem compareResponses_target_dedup (rs : List ResponseInfo) :
    (∀ g ∈ (compareResponses rs).1, g.Targets.Nodup) ∧
    (∀ (ts : List Target) (t : Target), t ∈ ts → addTarget ts t = ts) := by
  constructor
  · rw [compareResponses_eq]
    exact foldGroups_targetsNodup (okData rs) (fun g hg => absurd hg (List.not_mem_nil g))
  · intro ts t ht
    unfold addTarget
    rw [if_pos (List.any_eq_true.mpr ⟨t, ht, by simp⟩)]

/-! ## Splitting lemmas -/

theorem charSplit_ne_nil (sep : Char) (l : List Char) : charSplit sep l ≠ [] := by
  cases l with
  | nil => simp [charSplit]
  | cons c cs =>
    simp only [charSplit]
    by_cases h : c = sep
    · simp [h]
    · simp only [h, if_false]
      cases hcs : charSplit sep cs <;> simp

theorem charSplit_of_not_mem {sep : Char} : ∀ {l : List Char}, sep ∉ l →
    charSplit sep l = [l] := by
  intro l
  induction l with
  | nil => intro _; rfl
  | cons c cs ih =>
    intro h
    simp only [List.mem_cons] at h
    push_neg at h
    have hc : ¬c = sep := fun hcc => h.1 hcc.symm
    simp only [charSplit, hc, if_false]
    rw [ih h.2]

theorem charSplit_append {sep : Char} : ∀ {a : List Char} (r : List Char), sep ∉ a →
    charSplit sep (a ++ sep :: r) = a :: charSplit sep r := by
  intro a
  induction a with
  | nil =>
    intro r _
    simp [charSplit]
  | cons c a' ih =>
    intro r h
    simp only [List.mem_cons] at h
    push_neg at h
    have hc : ¬c = sep := fun hcc => h.1 hcc.symm
    simp only [List.cons_append, charSplit, hc, if_false, List.append_eq]
    rw [ih r h.2]

theorem goSplit_of_not_mem {sep : Char} {s : String} (h : sep ∉ s.data) :
    goSplit sep s = [s] := by
  unfold goSplit
  rw [charSplit_of_not_mem h]
  rfl

/-! ## Header-construction lemmas -/

theorem parseHeader_none {h : String} (hnc : ':' ∉ h.data) : parseHeader h = none := by
  unfold parseHeader
  rw [goSplit_of_not_mem hnc]

theorem parseHeader_eq_some {h k v : String} (hp : parseHeader h = some (k, v)) :
    ∃ t, goSplit ':' h = k :: v :: t := by
  unfold parseHeader at hp
  cases hg : goSplit ':' h with
  | nil => rw [hg] at hp; simp at hp
  | cons a as =>
    cases as with
    | nil => rw [hg] at hp; simp at hp
    | cons b bs =>
      rw [hg] at hp
      simp only [Option.some.injEq, Prod.mk.injEq] at hp
      obtain ⟨hpa, hpb⟩ := hp
      subst hpa
      subst hpb
      exact ⟨bs, hg.symm ▸ rfl⟩

theorem headerFold_none : ∀ {hs : List String} {hdr : String}, hdr ∈ hs →
    ':' ∉ hdr.data → headerFold hs = none := by
  intro hs
  induction hs with
  | nil => intro hdr h; cases h
  | cons h0 rest ih =>
    intro hdr hmem hnc
    rcases List.mem_cons.mp hmem with rfl | hmem
    · unfold headerFold
      rw [parseHeader_none hnc]
    · unfold headerFold
      cases hp : parseHeader h0 with
      | none => rfl
      | some kv =>
        obtain ⟨k, v⟩ := kv
        rw [ih hmem hnc]

theorem headerFold_flag : ∀ {hs : List String} {l : List (String × String)} {ct : Bool},
    headerFold hs = some (l, ct) → (ct = true ↔ suppliesContentType hs) := by
  intro hs
  induction hs with
  | nil =>
    intro l ct h
    simp only [headerFold, Option.some.injEq, Prod.mk.injEq] at h
    rw [← h.2]
    simp [suppliesContentType]
  | cons h0 rest ih =>
    intro l ct h
    unfold headerFold at h
    cases hp : parseHeader h0 with
    | none => rw [hp] at h; simp at h
    | some kv =>
      obtain ⟨k, v⟩ := kv
      rw [hp] at h
      cases hf : headerFold rest with
      | none => rw [hf] at h; simp at h
      | some lc =>
        obtain ⟨l', ct'⟩ := lc
        rw [hf] at h
        simp only [Option.some.injEq, Prod.mk.injEq] at h
        rw [← h.2, Bool.or_eq_true, beq_iff_eq]
        obtain ⟨t0, hsplit⟩ := parseHeader_eq_some hp
        constructor
        · rintro (hk | hct)
          · exact ⟨h0, List.mem_cons_self h0 rest, k, v :: t0, hsplit, hk⟩
          · obtain ⟨hd, hhd, v', rest', hs', hlow⟩ := (ih hf).mp hct
            exact ⟨hd, List.mem_cons_of_mem h0 hhd, v', rest', hs', hlow⟩
        · rintro ⟨hd, hhd, v', rest', hs', hlow⟩
          rcases List.mem_cons.mp hhd with rfl | hhd
          · left
            rw [hsplit] at hs'
            have : v' = k := (List.cons.injEq _ _ _ _ ▸ hs').1.symm
            rw [← this]
            exact hlow
          · right
            exact (ih hf).mpr ⟨hd, hhd, v', rest', hs', hlow⟩

/-! ## Dispatcher, redirect handling, preparation, entry point -/

theorem dispatcherReturns_iff (parseOk : String → Bool) (cfg : Configuration) :
    dispatcherReturns parseOk cfg ↔ completedDones parseOk cfg = expectedUnits cfg :=
  Iff.rfl

/-- Claim C4 (code bug): with one well-formed target and one target
whose URL fails to parse (at `count = 1`), `sendRequests` reserves two
wait-group units but only one `Done` call ever happens — the goroutine
of the bad target returns at `racer.go` line 268 without performing
its `Count` reserved `Done` calls — so the completion barrier
(`urlsInProgress.Wait()`, line 399) can never be satisfied and the
dispatcher never returns, contradicting the claim that such a run
still completes.  The bad target does contribute exactly one error and
no response, as the claim states. -/
theorem sendRequests_barrier_deadlock :
    expectedUnits ⟨1, false, "", [tFoo, tBadURL]⟩ = 2 ∧
    completedDones (fun u => u != ":") ⟨1, false, "", [tFoo, tBadURL]⟩ = 1 ∧
    urlParseErrors (fun u => u != ":") ⟨1, false, "", [tFoo, tBadURL]⟩ = 1 ∧
    completedDones (fun u => u != ":") ⟨1, false, "", [tFoo, tBadURL]⟩ <
      expectedUnits ⟨1, false, "", [tFoo, tBadURL]⟩ :=
  ⟨by decide, by decide, by decide, by decide⟩

/-- Claim C5: for a target with `redirects = false` whose server
answers with a redirect status, the execution produces exactly one
`ResponseInfo` carrying the redirect response itself and no error
(`racer.go` lines 369-392), and that record is grouped by
`compareResponses` exactly like a successful response: alone, it forms
one group of count 1 whose exemplar snapshot is built from the
redirect response. -/
theorem redirect_sentinel (t : Target) (s : HTTPResponse) (idx : Nat) (b : String)
    (h1 : t.Redirects = false) (h2 : isRedirectStatus s.StatusCode = true)
    (h3 : s.BodyRead = .ok b) :
    handleDoResult t idx (clientDo t.Redirects s) = ([⟨s, t⟩], []) ∧
    (compareResponses [⟨s, t⟩]).1 = [⟨mkData s b, [t], 1⟩] ∧
    (compareResponses [⟨s, t⟩]).2 = [] := by
  refine ⟨?_, ?_, ?_⟩
  · rw [h1]
    simp [clientDo, h2, handleDoResult]
  · simp [compareResponses, compareStep, h3, addUniqueResponse]
  · simp [compareResponses, compareStep, h3]

/-- Claim C6 (code bug): a cookie string without `"="` does not make
preparation fail with a cookie-format configuration error — the split
at `racer.go` line 204 yields the singleton `["nameonly"]`, so the
`vals[1]` access at line 206 is out of range: a Go runtime panic
(modelled by `PrepOutcome.panicked`), which is distinct from every
error return. -/
theorem prepareAttack_cookie_panic :
    goSplit '=' "nameonly" = ["nameonly"] ∧
    parseCookie "nameonly" = none ∧
    prepareAttackCookies (fun _ => true) [tBadCookie] = PrepOutcome.panicked :=
  ⟨by decide, by decide, by decide⟩

/-- Claim C8: in the revision of the dispatcher used by
`cmd.go`/`helpers.go` (src/unnamed/part_004 lines 263-285), the header
`Content-Type: application/x-www-form-urlencoded` is appended to the
request's headers exactly when the method is `POST` and no configured
header string names `Content-Type` (case-insensitively) before its
first colon; for non-POST methods it is never appended. -/
theorem post_content_type_default (t : Target) (custom : List (String × String))
    (ct : Bool) (h : headerFold t.Headers = some (custom, ct)) :
    (requestHeaderList t = some (cookieHeader t ++ custom ++ [ctDefaultPair]) ↔
      (t.Method = "POST" ∧ ¬suppliesContentType t.Headers)) := by
  unfold requestHeaderList
  rw [h]
  cases hct : ct with
  | true =>
    subst hct
    have hsup : suppliesContentType t.Headers := (headerFold_flag h).mp rfl
    simp only [Bool.not_true, Bool.false_and, Bool.false_eq_true, if_false]
    constructor
    · intro heq
      exfalso
      simp only [Option.some.injEq] at heq
      have := congrArg List.length heq
      simp at this
    · rintro ⟨_, hns⟩
      exact absurd hsup hns
  | false =>
    subst hct
    have hnsup : ¬suppliesContentType t.Headers := fun hs =>
      Bool.false_ne_true ((headerFold_flag h).mpr hs)
    by_cases hpost : t.Method = "POST"
    · have hb : (t.Method == "POST") = true := beq_iff_eq.mpr hpost
      simp only [Bool.not_false, Bool.true_and, hb, if_true]
      exact ⟨fun _ => ⟨hpost, hnsup⟩, fun _ => trivial⟩
    · have hb : (t.Method == "POST") = false := by
        simp [hpost]
      simp only [Bool.not_false, Bool.true_and, hb, Bool.false_eq_true, if_false]
      constructor
      · intro heq
        exfalso
        simp only [Option.some.injEq] at heq
        have := congrArg List.length heq
        simp at this
      · rintro ⟨hp, _⟩
        exact absurd hp hpost

/-- Claim C9 (counterexample): two runs of the entry point that differ
in one record with a failing body read — i.e. runs that accumulate
different non-fatal error lists (0 vs 1 console error lines) — return
the identical value to the caller, so the accumulated non-fatal errors
are printed, not returned alongside the grouped results. -/
theorem start_errors_not_returned :
    (startModel ⟨1, false, "", [tFoo]⟩ ([⟨okResp "ok", tFoo⟩], [])).1 =
      (startModel ⟨1, false, "", [tFoo]⟩
        ([⟨okResp "ok", tFoo⟩, ⟨errResp, tFoo⟩], [])).1 ∧
    ((startModel ⟨1, false, "", [tFoo]⟩ ([⟨okResp "ok", tFoo⟩], [])).2).length = 0 ∧
    ((startModel ⟨1, false, "", [tFoo]⟩
        ([⟨okResp "ok", tFoo⟩, ⟨errResp, tFoo⟩], [])).2).length = 1 :=
  ⟨by decide, by decide, by decide⟩

/-- Claim C9 (amended): for a configuration with at least one target,
the entry point `Start` returns a nil fatal error together with the
best-effort ordered group list; the accumulated non-fatal errors (the
dispatcher's and the grouper's) are written to the console as
`[ERROR]` lines and are not part of the returned value. -/
theorem start_returns_groups_and_logs_errors (cfg : Configuration)
    (resp : List ResponseInfo) (errs : List String) (h : cfg.Targets ≠ []) :
    (startModel cfg (resp, errs)).1 = (none, (compareResponses resp).1) ∧
    (startModel cfg (resp, errs)).2 =
      errs.map (fun e => "[ERROR] " ++ e) ++
        ((compareResponses resp).2).map (fun e => "[ERROR] " ++ e) := by
  unfold startModel
  rw [if_neg (by simpa [List.length_eq_zero] using h)]
  exact ⟨rfl, rfl⟩

/-- Claim C10: a custom header string without `":"` makes the header
loop's `split[1]` access out of range — `strings.Split` returns the
singleton list — which in Go is a runtime panic inside the execution
goroutine (modelled by the `none` outcome of header construction and
of the whole execution, as opposed to a recorded error); moreover a
header value containing `":"` is silently truncated at that colon:
only the text between the first and second colon becomes the header
value. -/
theorem header_parse_panic :
    (∀ (t : Target) (hdr : String), hdr ∈ t.Headers → ':' ∉ hdr.data →
      goSplit ':' hdr = [hdr] ∧ requestHeaderList t = none ∧
      ∀ (idx : Nat) (srv : HTTPResponse), executionOutcome t idx srv = none) ∧
    (∀ k v w : List Char, ':' ∉ k → ':' ∉ v →
      parseHeader ⟨k ++ ':' :: (v ++ ':' :: w)⟩ = some (⟨k⟩, ⟨v⟩)) := by
  constructor
  · intro t hdr hmem hnc
    have hrl : requestHeaderList t = none := by
      unfold requestHeaderList
      rw [headerFold_none hmem hnc]
    refine ⟨goSplit_of_not_mem hnc, hrl, fun idx srv => ?_⟩
    unfold executionOutcome
    rw [hrl]
  · intro k v w hk hv
    unfold parseHeader goSplit
    rw [show (⟨k ++ ':' :: (v ++ ':' :: w)⟩ : String).data = k ++ ':' :: (v ++ ':' :: w)
      from rfl]
    rw [charSplit_append (v ++ ':' :: w) hk, charSplit_append w hv]
    rfl

/-! ## Concrete witnesses -/

/-- Witness for claim C1 at a concrete three-record run. -/
theorem compareResponses_membership_witness :
    gSample1 ∈ gcompare rsSample ∧ gSample2 ∈ gcompare rsSample ∧
    (mkData (okResp "ok") "ok", tFoo) ∈ gSample1.members ∧
    (mkData (okResp "no") "no", tFoo) ∈ gSample2.members ∧
    ((gcompare rsSample).map (·.info) = (compareResponses rsSample).1 ∧
      (keyOf (mkData (okResp "ok") "ok") = keyOf (mkData (okResp "no") "no") ↔
        gSample1 = gSample2)) :=
  ⟨by decide, by decide, by decide, by decide,
    compareResponses_membership rsSample gSample1 gSample2 (by decide) (by decide)
      (mkData (okResp "ok") "ok", tFoo) (mkData (okResp "no") "no", tFoo)
      (by decide) (by decide)⟩

/-- Witness for claim C3 at a concrete permutation. -/
theorem compareResponses_perm_witness :
    rsSample.Perm rsSwapped ∧
    (((compareResponses rsSample).1).map pairOf).Perm
      (((compareResponses rsSwapped).1).map pairOf) :=
  ⟨by decide, compareResponses_perm rsSample rsSwapped (by decide)⟩

/-- Witness for claim C5 at a concrete 302 response. -/
theorem redirect_sentinel_witness :
    tFoo.Redirects = false ∧ isRedirectStatus redirResp.StatusCode = true ∧
    redirResp.BodyRead = Except.ok "" ∧
    (handleDoResult tFoo 0 (clientDo tFoo.Redirects redirResp) =
        ([⟨redirResp, tFoo⟩], []) ∧
      (compareResponses [⟨redirResp, tFoo⟩]).1 = [⟨mkData redirResp "", [tFoo], 1⟩] ∧
      (compareResponses [⟨redirResp, tFoo⟩]).2 = []) :=
  ⟨by decide, by decide, by decide,
    redirect_sentinel tFoo redirResp 0 "" (by decide) (by decide) (by decide)⟩

/-- Witness for claim C7 at a concrete run. -/
theorem compareResponses_target_dedup_witness :
    (⟨mkData (okResp "ok") "ok", [tFoo], 2⟩ : UniqueResponseInfo) ∈
      (compareResponses rsSample).1 ∧
    ([tFoo] : List Target).Nodup :=
  ⟨by decide,
    (compareResponses_target_dedup rsSample).1
      ⟨mkData (okResp "ok") "ok", [tFoo], 2⟩ (by decide)⟩

/-- Witness for claim C8 at a concrete POST target. -/
theorem post_content_type_default_witness :
    headerFold tPostW.Headers = some ([("X-A", "1")], false) ∧
    (requestHeaderList tPostW =
        some (cookieHeader tPostW ++ [("X-A", "1")] ++ [ctDefaultPair]) ↔
      (tPostW.Method = "POST" ∧ ¬suppliesContentType tPostW.Headers)) :=
  ⟨by decide, post_content_type_default tPostW [("X-A", "1")] false (by decide)⟩

/-- Witness for the amended claim C9 at a concrete dispatch outcome. -/
theorem start_returns_groups_witness :
    ((⟨1, false, "", [tFoo]⟩ : Configuration).Targets ≠ []) ∧
    ((startModel ⟨1, false, "", [tFoo]⟩
        ([⟨okResp "ok", tFoo⟩], ["connection refused"])).1 =
      (none, (compareResponses [⟨okResp "ok", tFoo⟩]).1) ∧
      (startModel ⟨1, false, "", [tFoo]⟩
          ([⟨okResp "ok", tFoo⟩], ["connection refused"])).2 =
        (["connection refused"].map (fun e => "[ERROR] " ++ e)) ++
          (((compareResponses [⟨okResp "ok", tFoo⟩]).2).map (fun e => "[ERROR] " ++ e))) :=
  ⟨by decide, start_returns_groups_and_logs_errors _ _ _ (by decide)⟩

/-- Witness for claim C10 at a concrete colon-less header. -/
theorem header_parse_panic_witness :
    "X-Token" ∈ tHdrPanic.Headers ∧ ':' ∉ "X-Token".data ∧
    (goSplit ':' "X-Token" = ["X-Token"] ∧ requestHeaderList tHdrPanic = none ∧
      ∀ (idx : Nat) (srv : HTTPResponse), executionOutcome tHdrPanic idx srv = none) ∧
    parseHeader "X: a:b" = some ("X", " a") :=
  ⟨by decide, by decide,
    header_parse_panic.1 tHdrPanic "X-Token" (by decide) (by decide),
    by decide⟩

end RaceTheWeb
